import Mathlib

/-!
Verification of core behaviors of the Sapphire Bluetooth host stack
(`pw_bluetooth_sapphire`), as a shallow embedding of the relevant C++
state and operations in Lean.

Each section embeds one component:
* `L2cap` — `l2cap::internal::ChannelImpl` from `host/l2cap/channel.cc`
  (`Send`, `SendFrame`, `Activate`, `Deactivate`, `HandleRxPdu`).
* `GapBrEdr` — `gap::BrEdrConnectionManager` from
  `host/gap/bredr_connection_manager.cc` (`Disconnect`, `SetSecurityMode`,
  `OnConnectionRequest`).
* `HciConnector` — `hci::LowEnergyConnector` from
  `host/hci/low_energy_connector.cc` (`CreateConnection`, `CancelInternal`,
  `OnConnectionCompleteEvent`).
* `LEAdv` — `hci::LowEnergyAdvertiser` (`CanStartAdvertising`,
  `GetSizeLimit`, `StopAdvertisingInternal`) and
  `gap::LowEnergyAdvertisingManager` / `gap::AdvertisementInstance` from
  `host/gap/low_energy_advertising_manager.cc`.
* `AdapterM` — the `Connect` bodies of `AdapterImpl::BrEdrImpl` and
  `AdapterImpl::LowEnergyImpl` from `host/gap/adapter.cc`, embedded as a
  statement list so that control flow (the early `return`) is explicit.

Opaque data (SDU payloads, device addresses, peer ids, HCI handles) is
represented by `Nat`.
-/

namespace L2cap

/-- State of one `l2cap::internal::ChannelImpl` (host/l2cap/channel.cc).
`linkAlive` models `link_.is_alive()`, `active` models `active_`,
`rxInstalled` models whether `rx_cb_` holds a callback, `maxTxQueued`
models `max_tx_queued_`, `pendingTxSdus` models the `std::queue`
`pending_tx_sdus_` (front = head of the list), `pendingTxPdus` models
`pending_tx_pdus_`, `pendingRxSdus` models `pending_rx_sdus_`, and
`droppedPackets` models the `dropped_packets` counter. -/
structure ChannelState where
  linkAlive : Bool
  active : Bool
  rxInstalled : Bool
  maxTxQueued : Nat
  pendingTxSdus : List Nat
  pendingTxPdus : List Nat
  pendingRxSdus : List Nat
  droppedPackets : Nat
deriving DecidableEq, Repr

/-- Embeds `ChannelImpl::SendFrame` (channel.cc:496-531). Drops the PDU when the
link is dead or the channel inactive; otherwise pushes it onto
`pending_tx_pdus_` and, if the queue now exceeds `max_tx_queued()`,
increments `dropped_packets` and pops the oldest (front) element. -/
def SendFrame (s : ChannelState) (pdu : Nat) : ChannelState :=
  if !s.linkAlive || !s.active then s
  else
    let pushed := s.pendingTxPdus ++ [pdu]
    if pushed.length > s.maxTxQueued then
      { s with pendingTxPdus := pushed.tail,
               droppedPackets := s.droppedPackets + 1 }
    else
      { s with pendingTxPdus := pushed }

/-- Embeds `ChannelImpl::GetNextQueuedSdu` (channel.cc:533-539): pops and
returns the front of `pending_tx_sdus_`, or returns `none` when the queue
is empty. -/
def GetNextQueuedSdu (s : ChannelState) : ChannelState × Option Nat :=
  match s.pendingTxSdus with
  | [] => (s, none)
  | sdu :: rest => ({ s with pendingTxSdus := rest }, some sdu)

/-- Modelled from the spec: the synchronous effect of
`tx_engine_->NotifySduQueued()` (channel.cc:271) for the Basic-mode Tx
engine, whose translation unit is not part of this excerpt. Per the spec —
"Basic Tx frames each SDU as exactly one PDU" (4.5) and scenario S5 — and
the code structure (`GetNextOutboundPacket` at channel.cc:275-301 reads
only `pending_tx_pdus_`, and `GetNextQueuedSdu`/`SendFrame` are the only
SDU-to-PDU path), the engine pops the just-queued SDU and hands its framed
PDU to `SendFrame`. -/
def NotifySduQueued (s : ChannelState) : ChannelState :=
  let popped := GetNextQueuedSdu s
  match popped.2 with
  | none => popped.1
  | some sdu => SendFrame popped.1 sdu

/-- Embeds `ChannelImpl::Send` (channel.cc:249-273). Returns false on a dead link,
on an inactive channel, or when `pending_tx_sdus_.size() > max_tx_queued()`;
otherwise pushes the SDU onto `pending_tx_sdus_`, notifies the Tx engine —
which, for a Basic-mode channel, synchronously frames the SDU through
`NotifySduQueued` — and returns true. -/
def Send (s : ChannelState) (sdu : Nat) : Bool × ChannelState :=
  if !s.linkAlive then (false, s)
  else if !s.active then (false, s)
  else if s.pendingTxSdus.length > s.maxTxQueued then (false, s)
  else
    (true, NotifySduQueued { s with pendingTxSdus := s.pendingTxSdus ++ [sdu] })

/-- Embeds `ChannelImpl::HandleRxPdu` (channel.cc:424-469). A PDU on a dead link is
ignored; otherwise `rx_engine_->ProcessPdu` (abstracted as `process`, since
the Rx engines live in separate translation units) may yield an SDU; a
yielded SDU is buffered in `pending_rx_sdus_` when the channel is not yet
active, and handed to `rx_cb_` (the `Option` output) when it is. -/
def HandleRxPdu (process : Nat → Option Nat) (s : ChannelState) (pdu : Nat) :
    ChannelState × Option Nat :=
  if !s.linkAlive then (s, none)
  else
    match process pdu with
    | none => (s, none)
    | some sdu =>
      if !s.active then
        ({ s with pendingRxSdus := s.pendingRxSdus ++ [sdu] }, none)
      else (s, some sdu)

/-- Embeds `ChannelImpl::Activate` (channel.cc:186-217). Fails, changing nothing,
when the link has already closed; otherwise marks the channel active,
installs the callbacks, and synchronously drains `pending_rx_sdus_` to the
new `rx_cb_` in front-to-back (FIFO) order. The third component is the list
of SDUs delivered to `rx_cb_` during the call, in delivery order. -/
def Activate (s : ChannelState) : Bool × ChannelState × List Nat :=
  if !s.linkAlive then (false, s, [])
  else
    (true,
     { s with active := true, rxInstalled := true, pendingRxSdus := [] },
     s.pendingRxSdus)

/-- Embeds `ChannelImpl::CleanUp` (channel.cc:471-494): clears `active_`, resets
the weak `link_`, and drops the installed callbacks. -/
def CleanUp (s : ChannelState) : ChannelState :=
  { s with active := false, linkAlive := false, rxInstalled := false }

/-- Embeds `ChannelImpl::Deactivate` (channel.cc:219-238). On a closed or inactive
channel it only resets the weak `link_`; otherwise it runs `CleanUp` (and
asks the link to remove the channel, which does not touch this state). -/
def Deactivate (s : ChannelState) : ChannelState :=
  if !s.linkAlive || !s.active then { s with linkAlive := false }
  else CleanUp s

/-- Fold `HandleRxPdu` over a sequence of received PDUs, keeping the state. -/
def arriveAll (process : Nat → Option Nat) (s : ChannelState)
    (pdus : List Nat) : ChannelState :=
  pdus.foldl (fun st p => (HandleRxPdu process st p).1) s

/-- Convenient fresh activated channel state used in concrete evaluations. -/
def freshActive (cap : Nat) : ChannelState :=
  { linkAlive := true, active := true, rxInstalled := true, maxTxQueued := cap,
    pendingTxSdus := [], pendingTxPdus := [], pendingRxSdus := [],
    droppedPackets := 0 }

/-- Fold `Send` over a sequence of submitted SDUs, keeping the state. -/
def sendAll (s : ChannelState) (sdus : List Nat) : ChannelState :=
  sdus.foldl (fun st x => (Send st x).2) s

end L2cap

namespace HciConnector

/-- Result delivered to a `LowEnergyConnector` status callback
(`hci::Result<>` narrowed to the outcomes relevant here). -/
inductive ConnectResult
  | ok
  | canceled
  | timedOut
  | protocolError (status : Nat)
deriving DecidableEq, Repr

/-- Embeds `LowEnergyConnector::PendingRequest`
(host/hci/low_energy_connector.h:146-153): the peer address of the single
outstanding request and its `initiating` / `canceled` / `timed_out` flags. -/
structure PendingLERequest where
  peerAddress : Nat
  initiating : Bool
  canceled : Bool
  timedOut : Bool
deriving DecidableEq, Repr

/-- State of one `hci::LowEnergyConnector`: the optional
`pending_request_`, whether `request_timeout_task_` is posted, and whether
the weak `hci_` transport pointer is alive. -/
structure LEConnectorState where
  pending : Option PendingLERequest
  timeoutTaskPending : Bool
  hciAlive : Bool
deriving DecidableEq, Repr

/-- HCI commands the connector can issue. -/
inductive LECommand
  | createConnection (peerAddress : Nat)
  | extendedCreateConnection (peerAddress : Nat)
  | createConnectionCancel
deriving DecidableEq, Repr

/-- Embeds `LowEnergyConnector::request_pending()`
(low_energy_connector.h:115). -/
def requestPending (s : LEConnectorState) : Bool := s.pending.isSome

/-- Status code `UNKNOWN_CONNECTION_ID` (0x02), the status the controller
reports in the connection-complete event generated by a successful
`HCI_LE_Create_Connection_Cancel`. -/
def kUnknownConnectionId : Nat := 2

/-- Embeds `LowEnergyConnector::CreateConnection`
(low_energy_connector.cc:93-139). Returns false at once when a request is
already pending; otherwise records the new `PendingRequest` and (via
`EnsureLocalAddress` / `CreateConnectionInternal`, modelled separately)
eventually issues the HCI command. -/
def CreateConnection (s : LEConnectorState) (peerAddress : Nat) :
    Bool × LEConnectorState :=
  if requestPending s then (false, s)
  else
    let req : PendingLERequest :=
      { peerAddress := peerAddress, initiating := false,
        canceled := false, timedOut := false }
    (true, { s with pending := some req })

/-- Embeds `LowEnergyConnector::CreateConnectionInternal`
(low_energy_connector.cc:149-218): runs once the local address is known;
aborts when the transport died or the request was canceled meanwhile,
otherwise marks the request `initiating` and sends the (extended) create
connection command. -/
def CreateConnectionInternal (s : LEConnectorState) (useExtended : Bool) :
    LEConnectorState × List LECommand :=
  if !s.hciAlive then (s, [])
  else
    match s.pending with
    | none => (s, [])
    | some r =>
      if r.canceled then ({ s with pending := none }, [])
      else
        ({ s with pending := some { r with initiating := true } },
         [if useExtended then LECommand.extendedCreateConnection r.peerAddress
          else LECommand.createConnection r.peerAddress])

/-- Embeds `LowEnergyConnector::OnCreateConnectionComplete`
(low_energy_connector.cc:456-467): cancels the timeout task, clears
`pending_request_` and invokes the moved-out status callback exactly once
(the `Option` output is the result the callback receives). -/
def OnCreateConnectionComplete (s : LEConnectorState) (result : ConnectResult) :
    LEConnectorState × Option ConnectResult :=
  ({ s with pending := none, timeoutTaskPending := false }, some result)

/-- Embeds `LowEnergyConnector::CancelInternal`
(low_energy_connector.cc:338-377). A no-op when already canceled;
otherwise marks the request canceled (recording whether a timeout caused
it) and cancels the request timeout. While a create-connection command is
in flight (`initiating` and the transport alive) it sends
`LE_Create_Connection_Cancel` and lets the later connection-complete event
finish the request; otherwise it completes the request immediately with
`kCanceled`. Output: (state, issued commands, immediate callback result). -/
def CancelInternal (s : LEConnectorState) (timedOut : Bool) :
    LEConnectorState × List LECommand × Option ConnectResult :=
  match s.pending with
  | none => (s, [], none)
  | some r =>
    if r.canceled then (s, [], none)
    else
      let r' := { r with canceled := true, timedOut := timedOut }
      let s' := { s with pending := some r', timeoutTaskPending := false }
      if r'.initiating && s'.hciAlive then
        (s', [LECommand.createConnectionCancel], none)
      else
        let done := OnCreateConnectionComplete s' ConnectResult.canceled
        (done.1, [], done.2)

/-- Embeds `LowEnergyConnector::Cancel` (low_energy_connector.h:112). -/
def Cancel (s : LEConnectorState) :
    LEConnectorState × List LECommand × Option ConnectResult :=
  CancelInternal s false

/-- Embeds `LowEnergyConnector::OnCreateConnectionTimeout`
(low_energy_connector.cc:469-476). -/
def OnCreateConnectionTimeout (s : LEConnectorState) :
    LEConnectorState × List LECommand × Option ConnectResult :=
  CancelInternal s true

/-- Embeds `LowEnergyConnector::OnConnectionCompleteEvent`
(low_energy_connector.cc:379-454). Output: (state, status-callback result,
whether the event was handed to the incoming-connection delegate). An
event with an error status matching the pending request completes it with
`kTimedOut` when the request timed out, `kCanceled` on
`UNKNOWN_CONNECTION_ID`, and the raw status otherwise; a successful event
matching a canceled/timed-out request destroys the new link and completes
with the corresponding error. -/
def OnConnectionCompleteEvent (s : LEConnectorState) (status : Nat)
    (peerAddress : Nat) :
    LEConnectorState × Option ConnectResult × Bool :=
  let matchesPending :=
    match s.pending with
    | some r => r.peerAddress == peerAddress
    | none => false
  if status != 0 then
    if !matchesPending then (s, none, false)
    else
      match s.pending with
      | none => (s, none, false)
      | some r =>
        let result :=
          if r.timedOut then ConnectResult.timedOut
          else if status == kUnknownConnectionId then ConnectResult.canceled
          else ConnectResult.protocolError status
        let done := OnCreateConnectionComplete s result
        (done.1, done.2, false)
  else
    if !matchesPending then (s, none, true)
    else
      match s.pending with
      | none => (s, none, false)
      | some r =>
        let result :=
          if r.timedOut then ConnectResult.timedOut
          else if r.canceled then ConnectResult.canceled
          else ConnectResult.ok
        let done := OnCreateConnectionComplete s result
        (done.1, done.2, false)

end HciConnector

namespace AdapterM

/-- The two outgoing-connection-request metric counters of
`AdapterImpl::metrics_` (host/gap/adapter.cc) touched by the `Connect`
overloads. -/
structure AdapterMetrics where
  bredrOutgoingConnectionRequests : Nat
  leOutgoingConnectionRequests : Nat
deriving DecidableEq, Repr

/-- The statements appearing in the bodies of
`AdapterImpl::BrEdrImpl::Connect` and `AdapterImpl::LowEnergyImpl::Connect`
(adapter.cc:95-101 and adapter.cc:227-231):
`returnDelegateConnect` is `return bredr_connection_manager_->Connect(...)`,
`delegateConnect` is the plain call
`le_connection_manager_->Connect(...)` (no return), and the two `add`
statements are the `metrics_....outgoing_connection_requests.Add()` calls. -/
inductive ConnectStmt
  | returnDelegateConnect
  | delegateConnect
  | addBredrOutgoingConnectionRequests
  | addLeOutgoingConnectionRequests
deriving DecidableEq, Repr

/-- Sequential execution of a `Connect` body: a `return` statement stops
execution (yielding `some` result), so statements after it are dead code. -/
def execConnectStmts (delegateResult : Bool) :
    List ConnectStmt → AdapterMetrics → AdapterMetrics × Option Bool
  | [], m => (m, none)
  | ConnectStmt.returnDelegateConnect :: _, m => (m, some delegateResult)
  | ConnectStmt.delegateConnect :: rest, m => execConnectStmts delegateResult rest m
  | ConnectStmt.addBredrOutgoingConnectionRequests :: rest, m =>
      execConnectStmts delegateResult rest
        { m with bredrOutgoingConnectionRequests :=
            m.bredrOutgoingConnectionRequests + 1 }
  | ConnectStmt.addLeOutgoingConnectionRequests :: rest, m =>
      execConnectStmts delegateResult rest
        { m with leOutgoingConnectionRequests :=
            m.leOutgoingConnectionRequests + 1 }

/-- Body of `AdapterImpl::BrEdrImpl::Connect` (adapter.cc:227-231): the
metric `Add()` is written after the `return` statement. -/
def bredrConnectBody : List ConnectStmt :=
  [ConnectStmt.returnDelegateConnect,
   ConnectStmt.addBredrOutgoingConnectionRequests]

/-- Body of `AdapterImpl::LowEnergyImpl::Connect` (adapter.cc:95-101): the
delegate call is followed by the metric `Add()`. -/
def leConnectBody : List ConnectStmt :=
  [ConnectStmt.delegateConnect,
   ConnectStmt.addLeOutgoingConnectionRequests]

end AdapterM

namespace LEAdv

/-- Errors surfaced by the advertising pipeline (`HostError` narrowed to
the codes used by `CanStartAdvertising` and
`LowEnergyAdvertisingManager::StartAdvertising`). -/
inductive AdvError
  | notSupported
  | advertisingDataTooLong
  | scanResponseTooLong
  | invalidParameters
deriving DecidableEq, Repr

/-- The fields of `LowEnergyAdvertiser::AdvertisingOptions` relevant to
admission checks (host/hci/low_energy_advertiser.cc); the interval and
flags fields do not affect the checks modelled here. -/
structure AdvertisingOptions where
  extendedPdu : Bool
  anonymous : Bool
  includeTxPowerLevel : Bool
deriving DecidableEq, Repr

/-- Embeds `LowEnergyAdvertiser::AdvertisingEventProperties`; all fields
default-initialize to false in the C++ struct. -/
structure AdvertisingEventProperties where
  connectable : Bool
  scannable : Bool
  directed : Bool
  highDutyCycleDirectedConnectable : Bool
  useLegacyPdus : Bool
  anonymousAdvertising : Bool
  includeTxPower : Bool
deriving DecidableEq, Repr

/-- A default-initialized `AdvertisingEventProperties` (all false). -/
def emptyProperties : AdvertisingEventProperties :=
  { connectable := false, scannable := false, directed := false,
    highDutyCycleDirectedConnectable := false, useLegacyPdus := false,
    anonymousAdvertising := false, includeTxPower := false }

/-- Embeds `GetExtendedAdvertisingEventProperties`
(low_energy_advertiser.cc:108-142). `scanRspBlockSize` models
`scan_rsp.CalculateBlockSize()` and `hasConnectCb` whether a
`connect_callback` was supplied. -/
def GetExtendedAdvertisingEventProperties (options : AdvertisingOptions)
    (scanRspBlockSize : Nat) (hasConnectCb : Bool) :
    AdvertisingEventProperties :=
  { emptyProperties with
      connectable := hasConnectCb,
      scannable := decide (0 < scanRspBlockSize),
      useLegacyPdus := !options.extendedPdu,
      anonymousAdvertising := options.anonymous,
      includeTxPower := options.includeTxPowerLevel }

/-- Embeds `GetLegacyAdvertisingEventProperties`
(low_energy_advertiser.cc:144-168): ADV_IND when connectable,
ADV_SCAN_IND when only a scan response is present, ADV_NONCONN_IND
otherwise. -/
def GetLegacyAdvertisingEventProperties (scanRspBlockSize : Nat)
    (hasConnectCb : Bool) : AdvertisingEventProperties :=
  if hasConnectCb then
    { emptyProperties with useLegacyPdus := true, connectable := true,
                           scannable := true }
  else if 0 < scanRspBlockSize then
    { emptyProperties with useLegacyPdus := true, scannable := true }
  else
    { emptyProperties with useLegacyPdus := true }

/-- Embeds `LowEnergyAdvertiser::GetAdvertisingEventProperties`
(low_energy_advertiser.cc:170-183). -/
def GetAdvertisingEventProperties (options : AdvertisingOptions)
    (scanRspBlockSize : Nat) (hasConnectCb : Bool) :
    AdvertisingEventProperties :=
  if options.extendedPdu then
    GetExtendedAdvertisingEventProperties options scanRspBlockSize hasConnectCb
  else
    GetLegacyAdvertisingEventProperties scanRspBlockSize hasConnectCb

/-- Embeds `hci_spec::kMaxLEAdvertisingDataLength`: the legacy 31-byte
advertising-data limit. -/
def kMaxLEAdvertisingDataLength : Nat := 31

/-- Modelled from the spec: the size of the TX-power-level TLV entry the
host appends to the advertising data (1 length byte + 1 AD-type byte +
1 power byte); the constant `kTLVTxPowerLevelSize` itself is declared in
`low_energy_advertiser.h`, which is not part of this excerpt. -/
def kTLVTxPowerLevelSize : Nat := 3

/-- Modelled from the spec: `AdvertisingEventProperties::IsDirected`,
declared in the (absent) `low_energy_advertiser.h`; per the directed cases
of `AdvertisingEventPropertiesToLEAdvertisingType`
(low_energy_advertiser.cc:185-214) a PDU is directed when either directed
flag is set. -/
def IsDirected (p : AdvertisingEventProperties) : Bool :=
  p.directed || p.highDutyCycleDirectedConnectable

/-- Embeds `LowEnergyAdvertiser::GetSizeLimit` (low_energy_advertiser.cc:29-54).
`maxAdvertisingDataLength` models the controller-reported
`max_advertising_data_length_` used for extended PDUs. -/
def GetSizeLimit (maxAdvertisingDataLength : Nat)
    (properties : AdvertisingEventProperties)
    (options : AdvertisingOptions) : Nat :=
  if !properties.useLegacyPdus then maxAdvertisingDataLength
  else if IsDirected properties then 0
  else
    let sizeLimit := kMaxLEAdvertisingDataLength
    if options.includeTxPowerLevel then sizeLimit - kTLVTxPowerLevelSize
    else sizeLimit

/-- Embeds `LowEnergyAdvertiser::CanStartAdvertising`
(low_energy_advertiser.cc:56-106). `dataBlockSizeWithFlags` models
`data.CalculateBlockSize(include_flags=true)` and `scanRspBlockSize`
models `scan_rsp.CalculateBlockSize(false)`. Returns `some` error on the
first failed admission check, `none` when advertising may start. -/
def CanStartAdvertising (maxAdvertisingDataLength : Nat)
    (dataBlockSizeWithFlags scanRspBlockSize : Nat)
    (options : AdvertisingOptions) (hasConnectCb : Bool) : Option AdvError :=
  if options.anonymous then some AdvError.notSupported
  else
    let properties :=
      GetAdvertisingEventProperties options scanRspBlockSize hasConnectCb
    if !properties.useLegacyPdus && properties.connectable &&
        properties.scannable then
      some AdvError.notSupported
    else
      let sizeLimit := GetSizeLimit maxAdvertisingDataLength properties options
      if dataBlockSizeWithFlags > sizeLimit then
        some AdvError.advertisingDataTooLong
      else if scanRspBlockSize > sizeLimit then
        some AdvError.scanResponseTooLong
      else none

/-- State of a `LowEnergyAdvertiser`: the keys of `connection_callbacks_`,
the map from `(local address, extended_pdu)` to the per-set connection
callback. -/
structure AdvertiserState where
  connectionCallbacks : List (Nat × Bool)
deriving DecidableEq, Repr

/-- Modelled from the spec: `LowEnergyAdvertiser::IsAdvertising(address,
extended_pdu)`, declared in the (absent) `low_energy_advertiser.h`; an
advertising set is live exactly while `connection_callbacks_` holds its
`(address, extended_pdu)` key (cf. low_energy_advertiser.cc:325 and 391). -/
def IsAdvertising (a : AdvertiserState) (address : Nat)
    (extendedPdu : Bool) : Bool :=
  a.connectionCallbacks.any (fun e => e.1 == address && e.2 == extendedPdu)

/-- HCI commands of the stop-advertising sequence. -/
inductive AdvCmd
  | disable (address : Nat) (extendedPdu : Bool)
  | unsetScanRsp (address : Nat) (extendedPdu : Bool)
  | unsetAdvData (address : Nat) (extendedPdu : Bool)
  | removeSet (address : Nat) (extendedPdu : Bool)
deriving DecidableEq, Repr

/-- Whether a command is an advertising-disable
(`LE_Set_(Extended_)Advertising_Enable(Disable)` or vendor equivalent). -/
def isDisable : AdvCmd → Bool
  | AdvCmd.disable _ _ => true
  | _ => false

/-- Embeds `LowEnergyAdvertiser::EnqueueStopAdvertisingCommands`
(low_energy_advertiser.cc:394-411): disable, unset scan response, unset
advertising data, remove set — in that order. -/
def EnqueueStopAdvertisingCommands (address : Nat) (extendedPdu : Bool) :
    List AdvCmd :=
  [AdvCmd.disable address extendedPdu,
   AdvCmd.unsetScanRsp address extendedPdu,
   AdvCmd.unsetAdvData address extendedPdu,
   AdvCmd.removeSet address extendedPdu]

/-- Embeds `LowEnergyAdvertiser::StopAdvertisingInternal`
(low_energy_advertiser.cc:370-392): a no-op for a set that is not
advertising; otherwise enqueues the stop sequence and erases the set's
connection callback. Returns the new state and the queued commands. -/
def StopAdvertisingInternal (a : AdvertiserState) (address : Nat)
    (extendedPdu : Bool) : AdvertiserState × List AdvCmd :=
  if !IsAdvertising a address extendedPdu then (a, [])
  else
    ({ connectionCallbacks :=
        a.connectionCallbacks.eraseP
          (fun e => e.1 == address && e.2 == extendedPdu) },
     EnqueueStopAdvertisingCommands address extendedPdu)

/-- Embeds `kInvalidAdvertisementId`. -/
def kInvalidAdvertisementId : Nat := 0

/-- State of a `gap::LowEnergyAdvertisingManager`: the
`advertisements_` map from `AdvertisementId` to the `ActiveAdvertisement`
data (local address and `extended_pdu`), the id counter
`next_advertisement_id_`, and the underlying advertiser. -/
structure ManagerState where
  advertisements : List (Nat × Nat × Bool)
  nextAdvertisementId : Nat
  advertiser : AdvertiserState
deriving DecidableEq, Repr

/-- Embeds `LowEnergyAdvertisingManager::StopAdvertising(advertisement_id)`
(low_energy_advertising_manager.cc:220-231): false for an unknown id;
otherwise stops the set through the advertiser (the manager's
`advertisements_` keys are unique, so erasing the found entry is the
map-erase of that id) and erases the id. Returns (result, state, queued
HCI commands). -/
def StopAdvertising (m : ManagerState) (advertisementId : Nat) :
    Bool × ManagerState × List AdvCmd :=
  match m.advertisements.find? (fun e => e.1 == advertisementId) with
  | none => (false, m, [])
  | some e =>
    let stopped := StopAdvertisingInternal m.advertiser e.2.1 e.2.2
    (true,
     { m with
        advertisements :=
          m.advertisements.eraseP (fun e2 => e2.1 == advertisementId),
        advertiser := stopped.1 },
     stopped.2)

/-- Embeds `LowEnergyAdvertisingManager::StartAdvertising`
(low_energy_advertising_manager.cc:119-218) composed with the advertiser's
admission check `CanStartAdvertising`: anonymous+connectable is rejected
by the manager up front with `kInvalidParameters`; a failed admission
check reports its error and registers nothing; otherwise a fresh
advertisement id is allocated and the set registered. Returns
(state, error, granted id). -/
def StartAdvertising (m : ManagerState) (maxAdvertisingDataLength : Nat)
    (dataBlockSizeWithFlags scanRspBlockSize : Nat)
    (options : AdvertisingOptions) (hasConnectCb : Bool) (address : Nat) :
    ManagerState × Option AdvError × Option Nat :=
  if options.anonymous && hasConnectCb then
    (m, some AdvError.invalidParameters, none)
  else
    match CanStartAdvertising maxAdvertisingDataLength dataBlockSizeWithFlags
        scanRspBlockSize options hasConnectCb with
    | some e => (m, some e, none)
    | none =>
      let id := m.nextAdvertisementId
      ({ advertisements := m.advertisements ++ [(id, address, options.extendedPdu)],
         nextAdvertisementId := id + 1,
         advertiser :=
           { connectionCallbacks :=
              m.advertiser.connectionCallbacks ++ [(address, options.extendedPdu)] } },
       none, some id)

/-- Embeds `gap::AdvertisementInstance`: the scoped handle, holding a weak
pointer to its manager (`ownerAlive`) and the advertisement id. -/
structure AdvertisementInstance where
  ownerAlive : Bool
  id : Nat
deriving DecidableEq, Repr

/-- Embeds `AdvertisementInstance::Reset`
(low_energy_advertising_manager.cc:71-78), the destructor's body: stops
the advertisement through the manager when the handle is live, then clears
the handle. Returns (handle, manager state, queued HCI commands). -/
def Reset (inst : AdvertisementInstance) (m : ManagerState) :
    AdvertisementInstance × ManagerState × List AdvCmd :=
  if inst.ownerAlive && inst.id != kInvalidAdvertisementId then
    let stopped := StopAdvertising m inst.id
    ({ ownerAlive := false, id := kInvalidAdvertisementId },
     stopped.2.1, stopped.2.2)
  else
    ({ ownerAlive := false, id := kInvalidAdvertisementId }, m, [])

end LEAdv

namespace GapBrEdr

/-- Embeds `gap::DisconnectReason`. -/
inductive DisconnectReason
  | apiRequest
  | interrogationFailed
  | pairingFailed
  | aclLinkError
  | peerDisconnection
deriving DecidableEq, Repr

/-- Embeds `sm::SecurityLevel`. -/
inductive SecurityLevel
  | noSecurity
  | encrypted
  | authenticated
  | secureAuthenticated
deriving DecidableEq, Repr

/-- Embeds `gap::BrEdrSecurityMode`. -/
inductive BrEdrSecurityMode
  | mode4
  | secureConnectionsOnly
deriving DecidableEq, Repr

/-- One entry of the manager's `connections_` map: its key (the connection
handle) and the `BrEdrConnection` attributes the modelled operations read —
`peer_id()`, `link().peer_address()`, `security_properties().level()` and
the security mode last set on the connection. -/
structure BrEdrConnectionEntry where
  handle : Nat
  peerId : Nat
  address : Nat
  level : SecurityLevel
  mode : BrEdrSecurityMode
deriving DecidableEq, Repr

/-- Modelled from the spec: `ExpiringSet<DeviceAddress>::add_until`
(the `ExpiringSet` container lives in a header outside this excerpt);
`elements_[elem] = expiry` — the element maps to the new deadline. -/
def addUntil (set : List (Nat × Nat)) (elem deadline : Nat) :
    List (Nat × Nat) :=
  set.filter (fun e => !(e.1 == elem)) ++ [(elem, deadline)]

/-- Modelled from the spec: `ExpiringSet<DeviceAddress>::contains` at time
`now` — the element is present and its deadline has not yet passed, so
incoming requests are "rejected for kLocalDisconnectCooldownDuration". -/
def containsAt (set : List (Nat × Nat)) (now elem : Nat) : Bool :=
  match set.find? (fun e => e.1 == elem) with
  | some e => now < e.2
  | none => false

/-- State of a `gap::BrEdrConnectionManager`: `connections_` (handle-keyed,
so handles are unique), `connection_requests_` as (peer id, `HasIncoming`)
pairs, the `deny_incoming_` expiring set as (address, deadline) pairs, the
dispatcher clock `dispatcher_.now()`, the `security_mode_`, and the
`PeerCache` portion it uses (`FindOrInitPeer`): address-to-peer-id
assignments plus the next fresh peer id. -/
structure BrEdrManagerState where
  connections : List BrEdrConnectionEntry
  connectionRequests : List (Nat × Bool)
  denyIncoming : List (Nat × Nat)
  now : Nat
  securityMode : BrEdrSecurityMode
  peerIds : List (Nat × Nat)
  nextPeerId : Nat
deriving DecidableEq, Repr

/-- Embeds `BrEdrConnectionManager::kLocalDisconnectCooldownDuration`
(bredr_connection_manager.h:188-189): 30 seconds, in seconds. -/
def kLocalDisconnectCooldownDuration : Nat := 30

/-- Embeds `BrEdrConnectionManager::FindConnectionById`
(bredr_connection_manager.cc:726-740): the first (unique) connection whose
`peer_id()` matches. -/
def FindConnectionById (s : BrEdrManagerState) (peerId : Nat) :
    Option BrEdrConnectionEntry :=
  s.connections.find? (fun c => c.peerId == peerId)

/-- Embeds `BrEdrConnectionManager::Disconnect`
(bredr_connection_manager.cc:480-531). Refuses while a connection request
for the peer is pending; succeeds vacuously when the peer is not
connected; otherwise — for `kApiRequest` only — adds the connection's peer
address to `deny_incoming_` until `now() + kLocalDisconnectCooldownDuration`
and then extracts the connection from `connections_` by its handle. -/
def Disconnect (s : BrEdrManagerState) (peerId : Nat)
    (reason : DisconnectReason) : Bool × BrEdrManagerState :=
  if s.connectionRequests.any (fun r => r.1 == peerId) then (false, s)
  else
    match FindConnectionById s peerId with
    | none => (true, s)
    | some c =>
      let deadline := s.now + kLocalDisconnectCooldownDuration
      let s1 :=
        if reason = DisconnectReason.apiRequest then
          { s with denyIncoming := addUntil s.denyIncoming c.address deadline }
        else s
      (true,
       { s1 with connections :=
          s1.connections.eraseP (fun c2 => c2.handle == c.handle) })

/-- Embeds `BrEdrConnectionManager::SetSecurityMode`
(bredr_connection_manager.cc:533-559): records the mode; for
`SecureConnectionsOnly` collects the peers of all connections whose
security level is not `kSecureAuthenticated` and disconnects each with
`kPairingFailed`; finally sets the mode on every remaining connection. -/
def SetSecurityMode (s : BrEdrManagerState) (mode : BrEdrSecurityMode) :
    BrEdrManagerState :=
  let s0 := { s with securityMode := mode }
  let s1 :=
    if mode = BrEdrSecurityMode.secureConnectionsOnly then
      let insufficient :=
        (s0.connections.filter
          (fun c => !(c.level == SecurityLevel.secureAuthenticated))).map
          (fun c => c.peerId)
      insufficient.foldl
        (fun st pid => (Disconnect st pid DisconnectReason.pairingFailed).2) s0
    else s0
  { s1 with connections := s1.connections.map (fun c => { c with mode := mode }) }

/-- Embeds `BrEdrConnectionManager::FindOrInitPeer`
(bredr_connection_manager.cc:756-762): the peer id cached for the address,
or a freshly allocated one. -/
def FindOrInitPeer (s : BrEdrManagerState) (address : Nat) :
    Nat × BrEdrManagerState :=
  match s.peerIds.find? (fun e => e.1 == address) with
  | some e => (e.2, s)
  | none =>
    (s.nextPeerId,
     { s with peerIds := s.peerIds ++ [(address, s.nextPeerId)],
              nextPeerId := s.nextPeerId + 1 })

/-- Embeds `BrEdrConnectionManager::ExistsIncomingRequest`
(bredr_connection_manager.cc:975-979). -/
def ExistsIncomingRequest (s : BrEdrManagerState) (peerId : Nat) : Bool :=
  s.connectionRequests.any (fun r => r.1 == peerId && r.2)

/-- The `link_type` of an HCI `Connection_Request` event. -/
inductive LinkKind
  | acl
  | sco
  | esco
deriving DecidableEq, Repr

/-- What `OnConnectionRequest` did with the event: non-ACL requests are
forwarded to `HandleNonAclConnectionRequest` (whose SCO handling is out of
scope here and which never creates an ACL connection); the three reject
outcomes each send a reject command and create neither a connection nor a
request; `accepted` registers an incoming request and sends an accept. -/
inductive ConnReqOutcome
  | handledNonAcl
  | rejectedCooldown
  | rejectedDuplicate
  | rejectedAlreadyExists
  | accepted (peerId : Nat)
deriving DecidableEq, Repr

/-- Embeds `BrEdrConnectionManager::OnConnectionRequest`
(bredr_connection_manager.cc:982-1081): non-ACL links are handled apart;
an address on the `deny_incoming_` cooldown list is rejected before the
peer is even looked up; a second incoming request from the same peer and a
request from an already-connected peer are rejected; otherwise the request
is accepted and registered (begin-incoming on the peer's existing request
entry, or a fresh entry). -/
def OnConnectionRequest (s : BrEdrManagerState) (address : Nat)
    (link : LinkKind) : ConnReqOutcome × BrEdrManagerState :=
  if link ≠ LinkKind.acl then (ConnReqOutcome.handledNonAcl, s)
  else if containsAt s.denyIncoming s.now address then
    (ConnReqOutcome.rejectedCooldown, s)
  else
    let found := FindOrInitPeer s address
    let pid := found.1
    let s1 := found.2
    if ExistsIncomingRequest s1 pid then (ConnReqOutcome.rejectedDuplicate, s1)
    else if (FindConnectionById s1 pid).isSome then
      (ConnReqOutcome.rejectedAlreadyExists, s1)
    else
      let newRequests :=
        if s1.connectionRequests.any (fun r => r.1 == pid) then
          s1.connectionRequests.map
            (fun r => if r.1 == pid then (r.1, true) else r)
        else s1.connectionRequests ++ [(pid, true)]
      (ConnReqOutcome.accepted pid,
       { s1 with connectionRequests := newRequests })

end GapBrEdr

namespace L2cap

theorem arriveAll_inactive (process : Nat → Option Nat) (s : ChannelState)
    (pdus : List Nat) (halive : s.linkAlive = true) (hact : s.active = false) :
    arriveAll process s pdus =
      { s with pendingRxSdus := s.pendingRxSdus ++ pdus.filterMap process } := by
  obtain ⟨la, ac, ri, mq, ptx, ppd, prx, dp⟩ := s
  replace halive : la = true := halive
  replace hact : ac = false := hact
  subst halive
  subst hact
  induction pdus generalizing prx with
  | nil => simp [arriveAll]
  | cons p ps ih =>
    rw [arriveAll, List.foldl_cons, ← arriveAll]
    cases hp : process p
    · have hstep :
          (HandleRxPdu process ⟨true, false, ri, mq, ptx, ppd, prx, dp⟩ p).1 =
            ⟨true, false, ri, mq, ptx, ppd, prx, dp⟩ := by
        simp [HandleRxPdu, hp]
      rw [hstep, ih]
      simp [hp]
    · next a =>
      have hstep :
          (HandleRxPdu process ⟨true, false, ri, mq, ptx, ppd, prx, dp⟩ p).1 =
            ⟨true, false, ri, mq, ptx, ppd, prx ++ [a], dp⟩ := by
        simp [HandleRxPdu, hp]
      rw [hstep, ih]
      simp [hp]

theorem send_step_inv (s : ChannelState) (x : Nat)
    (hsdus : s.pendingTxSdus = [])
    (hbound : s.pendingTxPdus.length ≤ s.maxTxQueued) :
    (Send s x).2.pendingTxSdus = [] ∧
    (Send s x).2.pendingTxPdus.length ≤ (Send s x).2.maxTxQueued ∧
    (Send s x).2.maxTxQueued = s.maxTxQueued := by
  obtain ⟨la, ac, ri, mq, ptx, ppd, prx, dp⟩ := s
  replace hsdus : ptx = [] := hsdus
  replace hbound : ppd.length ≤ mq := hbound
  subst hsdus
  cases la
  · refine ⟨?_, ?_, ?_⟩ <;> simp [Send]
    exact hbound
  · cases ac
    · refine ⟨?_, ?_, ?_⟩ <;> simp [Send]
      exact hbound
    · have hmain : Send ⟨true, true, ri, mq, [], ppd, prx, dp⟩ x =
          (true, SendFrame ⟨true, true, ri, mq, [], ppd, prx, dp⟩ x) := by
        simp [Send, NotifySduQueued, GetNextQueuedSdu]
      rw [hmain]
      by_cases hov : mq < ppd.length + 1
      · have hsf : SendFrame ⟨true, true, ri, mq, [], ppd, prx, dp⟩ x =
            ⟨true, true, ri, mq, [], (ppd ++ [x]).tail, prx, dp + 1⟩ := by
          simp [SendFrame, hov]
        rw [hsf]
        refine ⟨rfl, ?_, rfl⟩
        simp only [List.length_tail, List.length_append, List.length_cons,
          List.length_nil]
        omega
      · have hsf : SendFrame ⟨true, true, ri, mq, [], ppd, prx, dp⟩ x =
            ⟨true, true, ri, mq, [], ppd ++ [x], prx, dp⟩ := by
          simp [SendFrame, hov]
        rw [hsf]
        refine ⟨rfl, ?_, rfl⟩
        simp only [List.length_append, List.length_cons, List.length_nil]
        omega

theorem sendAll_inv (sdus : List Nat) (s : ChannelState)
    (hsdus : s.pendingTxSdus = [])
    (hbound : s.pendingTxPdus.length ≤ s.maxTxQueued) :
    (sendAll s sdus).pendingTxSdus = [] ∧
    (sendAll s sdus).pendingTxPdus.length ≤ (sendAll s sdus).maxTxQueued ∧
    (sendAll s sdus).maxTxQueued = s.maxTxQueued := by
  induction sdus generalizing s with
  | nil => exact ⟨hsdus, hbound, rfl⟩
  | cons x xs ih =>
    rw [sendAll, List.foldl_cons, ← sendAll]
    have hstep := send_step_inv s x hsdus hbound
    have hrest := ih ((Send s x).2) hstep.1 hstep.2.1
    exact ⟨hrest.1, hrest.2.1, by rw [hrest.2.2, hstep.2.2]⟩

/-- C1: with the Tx engine framing each queued SDU synchronously, the
pending Tx queue never exceeds `max_tx_queued` across any sequence of
`Send` calls: the SDU queue is empty again after every call and the queue
of framed SDUs stays within the bound. A `Send` on an alive, active channel
always succeeds — drop-oldest always leaves room — and appends the new
SDU's frame; when the queue is already full, the oldest queued frame is
dropped (the queue becomes the tail of the pushed queue) and the channel's
drop counter is incremented. -/
theorem c1_send_queue_policy (s : ChannelState) (sdu : Nat) (sdus : List Nat)
    (hsdus : s.pendingTxSdus = [])
    (hbound : s.pendingTxPdus.length ≤ s.maxTxQueued) :
    ((sendAll s sdus).pendingTxSdus = [] ∧
     (sendAll s sdus).pendingTxPdus.length ≤ s.maxTxQueued) ∧
    (s.linkAlive = true → s.active = true →
      (Send s sdu).1 = true ∧
      (Send s sdu).2.pendingTxSdus = [] ∧
      (s.pendingTxPdus.length < s.maxTxQueued →
        (Send s sdu).2.pendingTxPdus = s.pendingTxPdus ++ [sdu] ∧
        (Send s sdu).2.droppedPackets = s.droppedPackets) ∧
      (s.pendingTxPdus.length = s.maxTxQueued →
        (Send s sdu).2.pendingTxPdus = (s.pendingTxPdus ++ [sdu]).tail ∧
        (Send s sdu).2.droppedPackets = s.droppedPackets + 1)) := by
  constructor
  · have h := sendAll_inv sdus s hsdus hbound
    exact ⟨h.1, by rw [← h.2.2]; exact h.2.1⟩
  · intro ha hb
    obtain ⟨la, ac, ri, mq, ptx, ppd, prx, dp⟩ := s
    replace hsdus : ptx = [] := hsdus
    replace hbound : ppd.length ≤ mq := hbound
    replace ha : la = true := ha
    replace hb : ac = true := hb
    subst hsdus
    subst ha
    subst hb
    have hmain : Send ⟨true, true, ri, mq, [], ppd, prx, dp⟩ sdu =
        (true, SendFrame ⟨true, true, ri, mq, [], ppd, prx, dp⟩ sdu) := by
      simp [Send, NotifySduQueued, GetNextQueuedSdu]
    refine ⟨by rw [hmain], ?_, ?_, ?_⟩
    · rw [hmain]
      by_cases hov : mq < ppd.length + 1 <;> simp [SendFrame, hov]
    · intro hlt
      replace hlt : ppd.length < mq := hlt
      have hov : ¬(mq < ppd.length + 1) := by omega
      rw [hmain]
      simp [SendFrame, hov]
    · intro heq
      replace heq : ppd.length = mq := heq
      have hov : mq < ppd.length + 1 := by omega
      rw [hmain]
      simp [SendFrame, hov]

/-- Witness for `c1_send_queue_policy`, the spec's scenario S5: a channel
with `max_tx_queued = 3` given five SDUs by plain `Send` calls ends with
the Tx queue holding the frames of SDUs 3, 4 and 5 and the drop counter at
2; the theorem applied there certifies the queue bound and that the fifth
`Send` succeeded while dropping the oldest queued frame. -/
theorem c1_send_queue_policy_witness :
    ((sendAll (freshActive 3) [1, 2, 3, 4, 5]).pendingTxSdus = [] ∧
     (sendAll (freshActive 3) [1, 2, 3, 4, 5]).pendingTxPdus.length ≤ 3) ∧
    sendAll (freshActive 3) [1, 2, 3, 4, 5] =
      { freshActive 3 with pendingTxPdus := [3, 4, 5], droppedPackets := 2 } ∧
    (Send (sendAll (freshActive 3) [1, 2, 3, 4]) 5).1 = true ∧
    (Send (sendAll (freshActive 3) [1, 2, 3, 4]) 5).2.droppedPackets =
      (sendAll (freshActive 3) [1, 2, 3, 4]).droppedPackets + 1 := by
  refine ⟨(c1_send_queue_policy (freshActive 3) 0 [1, 2, 3, 4, 5] rfl
    (by decide)).1, by decide, ?_, ?_⟩
  · exact ((c1_send_queue_policy (sendAll (freshActive 3) [1, 2, 3, 4]) 5 []
      (by decide) (by decide)).2 (by decide) (by decide)).1
  · exact (((c1_send_queue_policy (sendAll (freshActive 3) [1, 2, 3, 4]) 5 []
      (by decide) (by decide)).2 (by decide) (by decide)).2.2.2 (by decide)).2

/-- C2: `Activate` on a channel whose link has closed fails, returns false
and installs no callbacks (the state is unchanged); on an alive,
not-yet-activated channel it succeeds, and every SDU that arrived before
activation (buffered by `HandleRxPdu`) is delivered synchronously during
the `Activate` call, in the FIFO order in which the SDUs arrived. -/
theorem c2_activate_buffered_fifo (process : Nat → Option Nat)
    (s : ChannelState) (pdus : List Nat) (halive : s.linkAlive = true)
    (hact : s.active = false) (hbuf : s.pendingRxSdus = []) :
    ((Activate (arriveAll process s pdus)).1 = true ∧
     (Activate (arriveAll process s pdus)).2.2 = pdus.filterMap process ∧
     (Activate (arriveAll process s pdus)).2.1.active = true ∧
     (Activate (arriveAll process s pdus)).2.1.rxInstalled = true) ∧
    (∀ t : ChannelState, t.linkAlive = false → Activate t = (false, t, [])) := by
  constructor
  · rw [arriveAll_inactive process s pdus halive hact]
    simp [Activate, halive, hbuf]
  · intro t ht
    simp [Activate, ht]

/-- Witness for `c2_activate_buffered_fifo`: three SDUs buffered before
activation are all delivered, in arrival order, by the activation call. -/
theorem c2_activate_buffered_fifo_witness :
    (Activate (arriveAll Option.some
      { linkAlive := true, active := false, rxInstalled := false,
        maxTxQueued := 1, pendingTxSdus := [], pendingTxPdus := [],
        pendingRxSdus := [], droppedPackets := 0 } [1, 2, 3])).2.2 =
      [1, 2, 3] := by
  have h := c2_activate_buffered_fifo Option.some
    { linkAlive := true, active := false, rxInstalled := false,
      maxTxQueued := 1, pendingTxSdus := [], pendingTxPdus := [],
      pendingRxSdus := [], droppedPackets := 0 } [1, 2, 3] rfl rfl rfl
  simpa using h.1.2.1

/-- C10: `Send` returns false and leaves the channel state untouched
whenever the link is no longer alive or the channel is not active; an SDU
is only ever enqueued while the link is alive and the channel active (the
state `Activate` establishes; `Deactivate` always resets the weak link
reference and `CleanUp` — reached on deactivation and closure — clears
`active_`, so no `Send` after them can enqueue). -/
theorem c10_send_requires_active (s : ChannelState) (sdu : Nat) :
    (¬(s.linkAlive = true ∧ s.active = true) → Send s sdu = (false, s)) ∧
    ((Send s sdu).1 = true → s.linkAlive = true ∧ s.active = true) ∧
    ((Send s sdu).1 = false → (Send s sdu).2 = s) ∧
    ((Deactivate s).linkAlive = false ∧ (Send (Deactivate s) sdu).1 = false) ∧
    ((CleanUp s).active = false) := by
  have hfail : ¬(s.linkAlive = true ∧ s.active = true) → Send s sdu = (false, s) := by
    intro h
    by_cases ha : s.linkAlive = true
    · by_cases hb : s.active = true
      · exact absurd ⟨ha, hb⟩ h
      · simp [Send, ha, hb]
    · simp [Send, ha]
  refine ⟨hfail, ?_, ?_, ?_, by simp [CleanUp]⟩
  · intro h
    by_contra hcon
    rw [hfail hcon] at h
    simp at h
  · intro h
    by_cases hcon : s.linkAlive = true ∧ s.active = true
    · obtain ⟨ha, hb⟩ := hcon
      by_cases hc : s.pendingTxSdus.length ≤ s.maxTxQueued
      · simp [Send, ha, hb, Nat.not_lt.mpr hc] at h
      · simp [Send, ha, hb, Nat.lt_of_not_le hc]
    · rw [hfail hcon]
  · have hdead : (Deactivate s).linkAlive = false := by
      by_cases ha : s.linkAlive = true <;>
        by_cases hb : s.active = true <;>
          simp [Deactivate, CleanUp, ha, hb]
    refine ⟨hdead, ?_⟩
    simp [Send, hdead]

/-- Witness for `c10_send_requires_active`: `Send` on a dead link fails and
changes nothing. -/
theorem c10_send_requires_active_witness :
    Send { linkAlive := false, active := true, rxInstalled := true,
           maxTxQueued := 1, pendingTxSdus := [], pendingTxPdus := [],
           pendingRxSdus := [], droppedPackets := 0 } 3 =
      (false, { linkAlive := false, active := true, rxInstalled := true,
                maxTxQueued := 1, pendingTxSdus := [], pendingTxPdus := [],
                pendingRxSdus := [], droppedPackets := 0 }) :=
  (c10_send_requires_active _ 3).1 (by decide)

end L2cap

namespace HciConnector

/-- C5: while a request is pending, `CreateConnection` returns false,
issues nothing and leaves the connector state (in particular the pending
request) unchanged. -/
theorem c5_single_pending_request (s : LEConnectorState) (peerAddress : Nat)
    (h : requestPending s = true) :
    CreateConnection s peerAddress = (false, s) := by
  simp [CreateConnection, h]

/-- Witness for `c5_single_pending_request` at a concrete pending state. -/
theorem c5_single_pending_request_witness :
    CreateConnection
      { pending := some { peerAddress := 9, initiating := true,
                          canceled := false, timedOut := false },
        timeoutTaskPending := true, hciAlive := true } 10 =
      (false,
       { pending := some { peerAddress := 9, initiating := true,
                           canceled := false, timedOut := false },
         timeoutTaskPending := true, hciAlive := true }) :=
  c5_single_pending_request _ 10 (by decide)

/-- Events that arrive once no request is pending never invoke a status
callback. -/
theorem onConnectionCompleteEvent_no_pending (s : LEConnectorState)
    (status peerAddress : Nat) (h : s.pending = none) :
    (OnConnectionCompleteEvent s status peerAddress).2.1 = none := by
  by_cases hs : status != 0 <;> simp [OnConnectionCompleteEvent, h, hs]

/-- C6: canceling while the create-connection command is in flight sends
`LE_Create_Connection_Cancel`, completes nothing immediately and leaves the
request pending (marked canceled, and timed-out when the cancel came from
the request timeout); the subsequent connection-complete event with status
`UNKNOWN_CONNECTION_ID` then invokes the status callback exactly once —
with `kCanceled`, or `kTimedOut` for a timeout-triggered cancel — and
clears the pending request, after which no later event can invoke the
callback again. -/
theorem c6_cancel_during_connecting (s : LEConnectorState)
    (r : PendingLERequest) (timedOut : Bool) (hp : s.pending = some r)
    (hinit : r.initiating = true) (hcanc : r.canceled = false)
    (hhci : s.hciAlive = true) :
    (CancelInternal s timedOut).2.1 = [LECommand.createConnectionCancel] ∧
    (CancelInternal s timedOut).2.2 = none ∧
    (CancelInternal s timedOut).1.pending =
      some { r with canceled := true, timedOut := timedOut } ∧
    (OnConnectionCompleteEvent (CancelInternal s timedOut).1
        kUnknownConnectionId r.peerAddress).2.1 =
      some (if timedOut then ConnectResult.timedOut else ConnectResult.canceled) ∧
    (OnConnectionCompleteEvent (CancelInternal s timedOut).1
        kUnknownConnectionId r.peerAddress).1.pending = none ∧
    (∀ st ad,
      (OnConnectionCompleteEvent
        (OnConnectionCompleteEvent (CancelInternal s timedOut).1
          kUnknownConnectionId r.peerAddress).1 st ad).2.1 = none) := by
  have hstate : CancelInternal s timedOut =
      ({ s with pending := some { r with canceled := true, timedOut := timedOut },
                timeoutTaskPending := false },
       [LECommand.createConnectionCancel], none) := by
    simp [CancelInternal, hp, hcanc, hinit, hhci]
  rw [hstate]
  have hev : OnConnectionCompleteEvent
      { s with pending := some { r with canceled := true, timedOut := timedOut },
               timeoutTaskPending := false }
      kUnknownConnectionId r.peerAddress =
      ({ s with pending := none, timeoutTaskPending := false },
       some (if timedOut then ConnectResult.timedOut else ConnectResult.canceled),
       false) := by
    by_cases ht : timedOut = true <;>
      simp [OnConnectionCompleteEvent, OnCreateConnectionComplete,
        kUnknownConnectionId, ht]
  rw [hev]
  refine ⟨rfl, rfl, rfl, rfl, rfl, ?_⟩
  intro st ad
  exact onConnectionCompleteEvent_no_pending _ st ad rfl

/-- Witness for `c6_cancel_during_connecting`: a concrete in-flight request
canceled via `Cancel`, completed by the synthetic event with status 0x02. -/
theorem c6_cancel_during_connecting_witness :
    (OnConnectionCompleteEvent
      (CancelInternal
        { pending := some { peerAddress := 7, initiating := true,
                            canceled := false, timedOut := false },
          timeoutTaskPending := true, hciAlive := true } false).1
      kUnknownConnectionId 7).2.1 = some ConnectResult.canceled := by
  have h := c6_cancel_during_connecting
    { pending := some { peerAddress := 7, initiating := true,
                        canceled := false, timedOut := false },
      timeoutTaskPending := true, hciAlive := true }
    { peerAddress := 7, initiating := true, canceled := false,
      timedOut := false } false rfl rfl rfl rfl
  simpa using h.2.2.2.1

end HciConnector

namespace AdapterM

/-- C9: `BrEdrImpl::Connect` returns the delegate's result and leaves the
bredr `outgoing_connection_requests` counter unchanged (its `Add()` sits
after the `return` and is unreachable), while `LowEnergyImpl::Connect`
increments the le `outgoing_connection_requests` counter by one. -/
theorem c9_connect_metrics (m : AdapterMetrics) (delegateResult : Bool) :
    execConnectStmts delegateResult bredrConnectBody m = (m, some delegateResult) ∧
    (execConnectStmts delegateResult leConnectBody m).1.leOutgoingConnectionRequests =
      m.leOutgoingConnectionRequests + 1 ∧
    (execConnectStmts delegateResult leConnectBody m).1.bredrOutgoingConnectionRequests =
      m.bredrOutgoingConnectionRequests := by
  refine ⟨rfl, ?_, ?_⟩ <;> simp [execConnectStmts, leConnectBody]

end AdapterM

namespace LEAdv

theorem find?_eraseP_of_nodup_keys {α : Type} (key : α → Nat) (l : List α)
    (k : Nat) (hnodup : (l.map key).Nodup)
    (hfind : (l.find? (fun e => key e == k)).isSome = true) :
    (l.eraseP (fun e => key e == k)).find? (fun e => key e == k) = none := by
  induction l with
  | nil => simp at hfind
  | cons h t ih =>
    simp only [List.map_cons, List.nodup_cons] at hnodup
    by_cases hk : (key h == k) = true
    · have herase : (h :: t).eraseP (fun e => key e == k) = t := by
        simp [List.eraseP_cons, hk]
      rw [herase]
      apply List.find?_eq_none.mpr
      intro e he
      have hke : key e ∈ t.map key := List.mem_map_of_mem key he
      have hne : key e ≠ key h := by
        intro hcontra
        exact hnodup.1 (hcontra ▸ hke)
      have hkk : key h = k := by simpa using hk
      have hnek : key e ≠ k := by rw [← hkk]; exact hne
      simp [hnek]
    · have herase : (h :: t).eraseP (fun e => key e == k) =
          h :: t.eraseP (fun e => key e == k) := by
        simp [List.eraseP_cons, hk]
      have hskip : (h :: t).find? (fun e => key e == k) =
          t.find? (fun e => key e == k) := by
        simp [List.find?, hk]
      rw [hskip] at hfind
      rw [herase]
      have hrec := ih hnodup.2 hfind
      simp [List.find?, hk, hrec]

/-- C7: `StartAdvertising` fails with an error result and registers no
advertising set for each disallowed combination: anonymous advertising with
a connectable request (rejected by the manager with `kInvalidParameters`);
extended PDUs that are both scannable and connectable (rejected by the
admission check); and advertising data that, with TX-power inclusion,
overflows the legacy 31-byte limit (rejected with
`kAdvertisingDataTooLong`). -/
theorem c7_start_advertising_rejections (m : ManagerState)
    (maxAdvertisingDataLength dataBlockSizeWithFlags scanRspBlockSize : Nat)
    (options : AdvertisingOptions) (hasConnectCb : Bool) (address : Nat) :
    (options.anonymous = true → hasConnectCb = true →
      StartAdvertising m maxAdvertisingDataLength dataBlockSizeWithFlags
          scanRspBlockSize options hasConnectCb address =
        (m, some AdvError.invalidParameters, none)) ∧
    (options.extendedPdu = true → hasConnectCb = true →
      0 < scanRspBlockSize →
      ∃ e, StartAdvertising m maxAdvertisingDataLength dataBlockSizeWithFlags
          scanRspBlockSize options hasConnectCb address = (m, some e, none)) ∧
    (options.anonymous = false → options.extendedPdu = false →
      options.includeTxPowerLevel = true →
      kMaxLEAdvertisingDataLength <
        dataBlockSizeWithFlags + kTLVTxPowerLevelSize →
      StartAdvertising m maxAdvertisingDataLength dataBlockSizeWithFlags
          scanRspBlockSize options hasConnectCb address =
        (m, some AdvError.advertisingDataTooLong, none)) := by
  obtain ⟨ext, anon, txp⟩ := options
  refine ⟨?_, ?_, ?_⟩
  · intro ha hc
    subst ha
    subst hc
    simp [StartAdvertising]
  · intro he hc hs
    subst he
    subst hc
    by_cases ha : anon = true
    · subst ha
      exact ⟨AdvError.invalidParameters, by simp [StartAdvertising]⟩
    · have ha' : anon = false := by
        cases anon
        · rfl
        · exact absurd rfl ha
      subst ha'
      refine ⟨AdvError.notSupported, ?_⟩
      simp [StartAdvertising, CanStartAdvertising,
        GetAdvertisingEventProperties, GetExtendedAdvertisingEventProperties,
        emptyProperties, hs]
  · intro ha he ht hsz
    subst ha
    subst he
    subst ht
    have hlim : dataBlockSizeWithFlags >
        kMaxLEAdvertisingDataLength - kTLVTxPowerLevelSize := by
      simp [kMaxLEAdvertisingDataLength, kTLVTxPowerLevelSize] at hsz ⊢
      omega
    by_cases hc : hasConnectCb = true
    · subst hc
      simp [StartAdvertising, CanStartAdvertising,
        GetAdvertisingEventProperties, GetLegacyAdvertisingEventProperties,
        emptyProperties, GetSizeLimit, IsDirected, hlim]
    · have hc' : hasConnectCb = false := by
        cases hasConnectCb
        · rfl
        · exact absurd rfl hc
      subst hc'
      by_cases hs : 0 < scanRspBlockSize <;>
        simp [StartAdvertising, CanStartAdvertising,
          GetAdvertisingEventProperties, GetLegacyAdvertisingEventProperties,
          emptyProperties, GetSizeLimit, IsDirected, hlim, hs]

/-- Witness for `c7_start_advertising_rejections`: all three rejections at
concrete inputs (anonymous+connectable; extended scannable+connectable;
29 bytes of data plus the 3-byte TX-power entry against the 31-byte legacy
limit). -/
theorem c7_start_advertising_rejections_witness :
    StartAdvertising ⟨[], 1, ⟨[]⟩⟩ 251 0 0 ⟨false, true, false⟩ true 100 =
      (⟨[], 1, ⟨[]⟩⟩, some AdvError.invalidParameters, none) ∧
    (∃ e, StartAdvertising ⟨[], 1, ⟨[]⟩⟩ 251 0 5 ⟨true, false, false⟩ true 100 =
      (⟨[], 1, ⟨[]⟩⟩, some e, none)) ∧
    StartAdvertising ⟨[], 1, ⟨[]⟩⟩ 251 29 0 ⟨false, false, true⟩ false 100 =
      (⟨[], 1, ⟨[]⟩⟩, some AdvError.advertisingDataTooLong, none) := by
  refine ⟨?_, ?_, ?_⟩
  · exact (c7_start_advertising_rejections ⟨[], 1, ⟨[]⟩⟩ 251 0 0
      ⟨false, true, false⟩ true 100).1 rfl rfl
  · exact (c7_start_advertising_rejections ⟨[], 1, ⟨[]⟩⟩ 251 0 5
      ⟨true, false, false⟩ true 100).2.1 rfl rfl (by decide)
  · exact (c7_start_advertising_rejections ⟨[], 1, ⟨[]⟩⟩ 251 29 0
      ⟨false, false, true⟩ false 100).2.2 rfl rfl rfl (by decide)

/-- C8: dropping a live `AdvertisementInstance` runs exactly one
stop-advertising sequence for its set — the queued commands are the
four-command stop sequence, containing exactly one advertising-disable —
removes the advertisement id from the manager, after which
`StopAdvertising` with the same id returns false and changes nothing, and
a repeated drop of the (now cleared) handle emits nothing. -/
theorem c8_instance_drop (m : ManagerState) (inst : AdvertisementInstance)
    (address : Nat) (extendedPdu : Bool)
    (halive : inst.ownerAlive = true)
    (hid : inst.id ≠ kInvalidAdvertisementId)
    (hnodup : (m.advertisements.map (fun e => e.1)).Nodup)
    (hfind : m.advertisements.find? (fun e => e.1 == inst.id) =
      some (inst.id, address, extendedPdu))
    (hadv : IsAdvertising m.advertiser address extendedPdu = true) :
    (Reset inst m).2.2 = EnqueueStopAdvertisingCommands address extendedPdu ∧
    (Reset inst m).2.2.countP isDisable = 1 ∧
    (Reset inst m).2.1.advertisements.find? (fun e => e.1 == inst.id) = none ∧
    StopAdvertising (Reset inst m).2.1 inst.id =
      (false, (Reset inst m).2.1, []) ∧
    (Reset inst m).1 =
      { ownerAlive := false, id := kInvalidAdvertisementId } ∧
    Reset (Reset inst m).1 (Reset inst m).2.1 =
      ((Reset inst m).1, (Reset inst m).2.1, []) := by
  have hguard : (inst.ownerAlive && inst.id != kInvalidAdvertisementId) = true := by
    simp [halive, hid]
  have hreset : Reset inst m =
      ({ ownerAlive := false, id := kInvalidAdvertisementId },
       { m with
          advertisements :=
            m.advertisements.eraseP (fun e2 => e2.1 == inst.id),
          advertiser :=
            { connectionCallbacks :=
                m.advertiser.connectionCallbacks.eraseP
                  (fun e => e.1 == address && e.2 == extendedPdu) } },
       EnqueueStopAdvertisingCommands address extendedPdu) := by
    simp [Reset, hguard, StopAdvertising, hfind, StopAdvertisingInternal, hadv]
  have hnone : (m.advertisements.eraseP
      (fun e2 => e2.1 == inst.id)).find? (fun e => e.1 == inst.id) = none :=
    find?_eraseP_of_nodup_keys (fun e => e.1) m.advertisements inst.id hnodup
      (by rw [hfind]; rfl)
  rw [hreset]
  refine ⟨rfl, ?_, ?_, ?_, rfl, ?_⟩
  · simp [EnqueueStopAdvertisingCommands, List.countP_cons, isDisable]
  · exact hnone
  · simp [StopAdvertising, hnone]
  · simp [Reset, kInvalidAdvertisementId]

/-- Witness for `c8_instance_drop` at a concrete manager holding one live
advertisement with id 1 on address 100. -/
theorem c8_instance_drop_witness :
    (Reset ⟨true, 1⟩ ⟨[(1, 100, false)], 2, ⟨[(100, false)]⟩⟩).2.2.countP
        isDisable = 1 ∧
    StopAdvertising (Reset ⟨true, 1⟩
        ⟨[(1, 100, false)], 2, ⟨[(100, false)]⟩⟩).2.1 1 =
      (false,
       (Reset ⟨true, 1⟩ ⟨[(1, 100, false)], 2, ⟨[(100, false)]⟩⟩).2.1, []) := by
  have h := c8_instance_drop ⟨[(1, 100, false)], 2, ⟨[(100, false)]⟩⟩
    ⟨true, 1⟩ 100 false rfl (by decide) (by decide) (by decide) (by decide)
  exact ⟨h.2.1, h.2.2.2.1⟩

end LEAdv

namespace GapBrEdr

theorem find?_addUntil (set : List (Nat × Nat)) (elem deadline : Nat) :
    (addUntil set elem deadline).find? (fun e => e.1 == elem) =
      some (elem, deadline) := by
  unfold addUntil
  induction set with
  | nil => simp [List.find?]
  | cons h t ih =>
    by_cases hk : (h.1 == elem) = true
    · simp only [List.filter_cons, hk, Bool.not_true, if_pos, cond_false]
      exact ih
    · have hk' : (h.1 == elem) = false := by
        cases hval : (h.1 == elem)
        · rfl
        · exact absurd hval hk
      simp only [List.filter_cons, hk', Bool.not_false, if_pos, cond_true,
        List.cons_append, List.find?]
      exact ih

/-- C3: `Disconnect` with reason `kApiRequest` on a connected peer (with no
request in flight) succeeds and maps the connection's peer address, in
`deny_incoming_`, to the deadline `now() + kLocalDisconnectCooldownDuration`
(30 s); any other reason leaves `deny_incoming_` untouched; and every ACL
`Connection_Request` from an address the denylist contains is rejected —
the reject command is sent and neither a connection nor a request is
created (the state is unchanged) — in particular at every instant before
the deadline. -/
theorem c3_disconnect_cooldown (s : BrEdrManagerState) (pid : Nat)
    (reason : DisconnectReason) (c : BrEdrConnectionEntry)
    (hreq : s.connectionRequests.any (fun r => r.1 == pid) = false)
    (hfind : FindConnectionById s pid = some c) :
    ((Disconnect s pid DisconnectReason.apiRequest).1 = true ∧
     (Disconnect s pid DisconnectReason.apiRequest).2.denyIncoming.find?
        (fun e => e.1 == c.address) =
       some (c.address, s.now + kLocalDisconnectCooldownDuration)) ∧
    (reason ≠ DisconnectReason.apiRequest →
      (Disconnect s pid reason).2.denyIncoming = s.denyIncoming) ∧
    (∀ t : BrEdrManagerState, ∀ address : Nat,
      containsAt t.denyIncoming t.now address = true →
      OnConnectionRequest t address LinkKind.acl =
        (ConnReqOutcome.rejectedCooldown, t)) ∧
    (∀ n : Nat, n < s.now + kLocalDisconnectCooldownDuration →
      OnConnectionRequest
          { (Disconnect s pid DisconnectReason.apiRequest).2 with now := n }
          c.address LinkKind.acl =
        (ConnReqOutcome.rejectedCooldown,
         { (Disconnect s pid DisconnectReason.apiRequest).2 with now := n })) := by
  have hdisc : (Disconnect s pid DisconnectReason.apiRequest).2.denyIncoming =
      addUntil s.denyIncoming c.address
        (s.now + kLocalDisconnectCooldownDuration) := by
    simp [Disconnect, hreq, hfind]
  have hcool : ∀ t : BrEdrManagerState, ∀ address : Nat,
      containsAt t.denyIncoming t.now address = true →
      OnConnectionRequest t address LinkKind.acl =
        (ConnReqOutcome.rejectedCooldown, t) := by
    intro t address hcontains
    simp [OnConnectionRequest, hcontains]
  refine ⟨⟨by simp [Disconnect, hreq, hfind], ?_⟩, ?_, hcool, ?_⟩
  · rw [hdisc]
    exact find?_addUntil s.denyIncoming c.address
      (s.now + kLocalDisconnectCooldownDuration)
  · intro hne
    unfold Disconnect
    rw [hreq, hfind]
    simp [hne]
  · intro n hn
    apply hcool
    have : ({ (Disconnect s pid DisconnectReason.apiRequest).2 with
        now := n } : BrEdrManagerState).denyIncoming =
        addUntil s.denyIncoming c.address
          (s.now + kLocalDisconnectCooldownDuration) := hdisc
    rw [this, containsAt, find?_addUntil]
    simpa using hn

/-- Witness for `c3_disconnect_cooldown`: a concrete connected peer 3 at
address 77 is disconnected by API request at time 1000, and at time 1005
an incoming ACL request from address 77 is rejected. -/
theorem c3_disconnect_cooldown_witness :
    (Disconnect
        { connections := [{ handle := 5, peerId := 3, address := 77,
                            level := SecurityLevel.encrypted,
                            mode := BrEdrSecurityMode.mode4 }],
          connectionRequests := [], denyIncoming := [], now := 1000,
          securityMode := BrEdrSecurityMode.mode4, peerIds := [(77, 3)],
          nextPeerId := 4 } 3
        DisconnectReason.apiRequest).2.denyIncoming.find?
      (fun e => e.1 == 77) = some (77, 1030) ∧
    OnConnectionRequest
        { (Disconnect
            { connections := [{ handle := 5, peerId := 3, address := 77,
                                level := SecurityLevel.encrypted,
                                mode := BrEdrSecurityMode.mode4 }],
              connectionRequests := [], denyIncoming := [], now := 1000,
              securityMode := BrEdrSecurityMode.mode4, peerIds := [(77, 3)],
              nextPeerId := 4 } 3
            DisconnectReason.apiRequest).2 with now := 1005 } 77
        LinkKind.acl =
      (ConnReqOutcome.rejectedCooldown,
       { (Disconnect
           { connections := [{ handle := 5, peerId := 3, address := 77,
                               level := SecurityLevel.encrypted,
                               mode := BrEdrSecurityMode.mode4 }],
             connectionRequests := [], denyIncoming := [], now := 1000,
             securityMode := BrEdrSecurityMode.mode4, peerIds := [(77, 3)],
             nextPeerId := 4 } 3
           DisconnectReason.apiRequest).2 with now := 1005 }) := by
  have h := c3_disconnect_cooldown
    { connections := [{ handle := 5, peerId := 3, address := 77,
                        level := SecurityLevel.encrypted,
                        mode := BrEdrSecurityMode.mode4 }],
      connectionRequests := [], denyIncoming := [], now := 1000,
      securityMode := BrEdrSecurityMode.mode4, peerIds := [(77, 3)],
      nextPeerId := 4 } 3 DisconnectReason.pairingFailed
    { handle := 5, peerId := 3, address := 77,
      level := SecurityLevel.encrypted, mode := BrEdrSecurityMode.mode4 }
    (by decide) (by decide)
  exact ⟨h.1.2, h.2.2.2 1005 (by decide)⟩

theorem eraseP_handle_eq_filter_peer (l : List BrEdrConnectionEntry)
    (pid : Nat) (c : BrEdrConnectionEntry)
    (hpn : (l.map (fun x => x.peerId)).Nodup)
    (hhn : (l.map (fun x => x.handle)).Nodup)
    (hfind : l.find? (fun x => x.peerId == pid) = some c) :
    l.eraseP (fun x => x.handle == c.handle) =
      l.filter (fun x => !(x.peerId == pid)) := by
  induction l with
  | nil => simp at hfind
  | cons h t ih =>
    simp only [List.map_cons, List.nodup_cons] at hpn hhn
    by_cases hk : (h.peerId == pid) = true
    · have hc : c = h := by
        have hcons : (h :: t).find? (fun x => x.peerId == pid) = some h := by
          simp [List.find?, hk]
        rw [hcons] at hfind
        exact (Option.some.inj hfind).symm
      have herase : (h :: t).eraseP (fun x => x.handle == c.handle) = t := by
        simp [List.eraseP_cons, hc]
      have hpeq : h.peerId = pid := by simpa using hk
      have hfilter : t.filter (fun x => !(x.peerId == pid)) = t := by
        apply List.filter_eq_self.mpr
        intro a ha
        have hmem : a.peerId ∈ t.map (fun x => x.peerId) :=
          List.mem_map_of_mem _ ha
        have hne : a.peerId ≠ pid := by
          intro hcontra
          apply hpn.1
          rw [← hpeq] at hcontra
          exact hcontra ▸ hmem
        simp [hne]
      rw [herase, List.filter_cons]
      simp [hk, hfilter]
    · have hk' : (h.peerId == pid) = false := by
        cases hval : (h.peerId == pid)
        · rfl
        · exact absurd hval hk
      have hfind' : t.find? (fun x => x.peerId == pid) = some c := by
        have hcons : (h :: t).find? (fun x => x.peerId == pid) =
            t.find? (fun x => x.peerId == pid) := by
          simp [List.find?, hk']
        rw [hcons] at hfind
        exact hfind
      have hcmem : c ∈ t := List.mem_of_find?_eq_some hfind'
      have hhne : (h.handle == c.handle) = false := by
        have : h.handle ≠ c.handle := by
          intro hcontra
          apply hhn.1
          exact hcontra ▸ List.mem_map_of_mem _ hcmem
        simp [this]
      have herase : (h :: t).eraseP (fun x => x.handle == c.handle) =
          h :: t.eraseP (fun x => x.handle == c.handle) := by
        simp [List.eraseP_cons, hhne]
      rw [herase, List.filter_cons]
      simp only [hk', Bool.not_false, if_pos, cond_true]
      rw [ih hpn.2 hhn.2 hfind']

theorem disconnect_pairingFailed_connections (s : BrEdrManagerState)
    (pid : Nat)
    (hreq : s.connectionRequests.any (fun r => r.1 == pid) = false)
    (hpn : (s.connections.map (fun x => x.peerId)).Nodup)
    (hhn : (s.connections.map (fun x => x.handle)).Nodup) :
    (Disconnect s pid DisconnectReason.pairingFailed).2 =
      { s with connections :=
          s.connections.filter (fun x => !(x.peerId == pid)) } := by
  unfold Disconnect
  rw [hreq]
  cases hfind : FindConnectionById s pid with
  | none =>
    have hfind' : s.connections.find? (fun x => x.peerId == pid) = none := hfind
    have hfilter : s.connections.filter (fun x => !(x.peerId == pid)) =
        s.connections := by
      apply List.filter_eq_self.mpr
      intro a ha
      have := List.find?_eq_none.mp hfind' a ha
      simpa using this
    simp [hfilter]
  | some c =>
    have hfind' : s.connections.find? (fun x => x.peerId == pid) = some c :=
      hfind
    have herase :=
      eraseP_handle_eq_filter_peer s.connections pid c hpn hhn hfind'
    simp [herase]

theorem disconnectAll_connections (pids : List Nat) (s : BrEdrManagerState)
    (hreq : ∀ pid ∈ pids,
      s.connectionRequests.any (fun r => r.1 == pid) = false)
    (hpn : (s.connections.map (fun x => x.peerId)).Nodup)
    (hhn : (s.connections.map (fun x => x.handle)).Nodup) :
    pids.foldl
        (fun st pid => (Disconnect st pid DisconnectReason.pairingFailed).2)
        s =
      { s with connections := s.connections.filter (fun x => !(pids.any (fun q => x.peerId == q))) } := by
  induction pids generalizing s with
  | nil => simp
  | cons pid rest ih =>
    rw [List.foldl_cons]
    have hstep := disconnect_pairingFailed_connections s pid
      (hreq pid (by simp)) hpn hhn
    rw [hstep]
    have hsub : List.Sublist
        (s.connections.filter (fun x => !(x.peerId == pid)))
        s.connections := List.filter_sublist _
    have hpn' : ((s.connections.filter
        (fun x => !(x.peerId == pid))).map (fun x => x.peerId)).Nodup :=
      hpn.sublist (hsub.map _)
    have hhn' : ((s.connections.filter
        (fun x => !(x.peerId == pid))).map (fun x => x.handle)).Nodup :=
      hhn.sublist (hsub.map _)
    have hreq' : ∀ q ∈ rest,
        ({ s with connections := s.connections.filter (fun x => !(x.peerId == pid)) } : BrEdrManagerState).connectionRequests.any (fun r => r.1 == q) = false := by
      intro q hq
      exact hreq q (by simp [hq])
    have hfold := ih
      { s with connections := s.connections.filter (fun x => !(x.peerId == pid)) }
      hreq' hpn' hhn'
    rw [hfold]
    have hcomp : (s.connections.filter
        (fun x => !(x.peerId == pid))).filter
        (fun x => !(rest.any (fun q => x.peerId == q))) =
        s.connections.filter
          (fun x => !((pid :: rest).any (fun q => x.peerId == q))) := by
      rw [List.filter_filter]
      apply List.filter_congr
      intro x hx
      cases hxp : (x.peerId == pid) <;>
        cases hxr : rest.any (fun q => x.peerId == q) <;>
          simp [List.any_cons, hxp, hxr]
    simp only [hcomp]

/-- C4: after `SetSecurityMode(SecureConnectionsOnly)` — given the manager's
map invariants (unique peer ids and handles) and no pending connection
request for any connected peer — the connection set is exactly the original
connections at level `kSecureAuthenticated`, each with the new mode set on
it: every connection below `AuthenticatedSecureConnections` has been
disconnected, and no remaining connection is below that level. -/
theorem c4_secure_connections_only (s : BrEdrManagerState)
    (hpn : (s.connections.map (fun x => x.peerId)).Nodup)
    (hhn : (s.connections.map (fun x => x.handle)).Nodup)
    (hreq : ∀ c ∈ s.connections,
      s.connectionRequests.any (fun r => r.1 == c.peerId) = false) :
    (SetSecurityMode s BrEdrSecurityMode.secureConnectionsOnly).connections =
      (s.connections.filter (fun c => c.level == SecurityLevel.secureAuthenticated)).map (fun c => { c with mode := BrEdrSecurityMode.secureConnectionsOnly }) ∧
    (SetSecurityMode s BrEdrSecurityMode.secureConnectionsOnly).securityMode =
      BrEdrSecurityMode.secureConnectionsOnly ∧
    ∀ c ∈ (SetSecurityMode s BrEdrSecurityMode.secureConnectionsOnly).connections,
      c.level = SecurityLevel.secureAuthenticated ∧
      c.mode = BrEdrSecurityMode.secureConnectionsOnly := by
  have hinj : ∀ x ∈ s.connections, ∀ y ∈ s.connections,
      x.peerId = y.peerId → x = y := by
    intro x hx y hy hxy
    exact List.inj_on_of_nodup_map hpn hx hy hxy
  have hreq' : ∀ pid ∈ (s.connections.filter (fun c => !(c.level == SecurityLevel.secureAuthenticated))).map (fun c => c.peerId),
      s.connectionRequests.any (fun r => r.1 == pid) = false := by
    intro pid hpid
    obtain ⟨c, hc, rfl⟩ := List.mem_map.mp hpid
    exact hreq c (List.mem_of_mem_filter hc)
  have hfold := disconnectAll_connections
    ((s.connections.filter (fun c => !(c.level == SecurityLevel.secureAuthenticated))).map (fun c => c.peerId))
    { s with securityMode := BrEdrSecurityMode.secureConnectionsOnly }
    hreq' hpn hhn
  have hkey : ∀ x ∈ s.connections,
      (!(((s.connections.filter (fun c => !(c.level == SecurityLevel.secureAuthenticated))).map (fun c => c.peerId)).any (fun q => x.peerId == q))) =
        (x.level == SecurityLevel.secureAuthenticated) := by
    intro x hx
    cases hl : (x.level == SecurityLevel.secureAuthenticated)
    · have hmem : x.peerId ∈ (s.connections.filter (fun c => !(c.level == SecurityLevel.secureAuthenticated))).map (fun c => c.peerId) := by
        apply List.mem_map_of_mem
        apply List.mem_filter.mpr
        exact ⟨hx, by simp [hl]⟩
      have hany : ((s.connections.filter (fun c => !(c.level == SecurityLevel.secureAuthenticated))).map (fun c => c.peerId)).any (fun q => x.peerId == q) = true := by
        apply List.any_eq_true.mpr
        exact ⟨x.peerId, hmem, by simp⟩
      simp [hany]
    · have hany : ((s.connections.filter (fun c => !(c.level == SecurityLevel.secureAuthenticated))).map (fun c => c.peerId)).any (fun q => x.peerId == q) = false := by
        cases hval : ((s.connections.filter (fun c => !(c.level == SecurityLevel.secureAuthenticated))).map (fun c => c.peerId)).any (fun q => x.peerId == q)
        · rfl
        · exfalso
          obtain ⟨q, hq, hbeq⟩ := List.any_eq_true.mp hval
          obtain ⟨c', hc', rfl⟩ := List.mem_map.mp hq
          have hcl := List.mem_filter.mp hc'
          have hxe : x = c' := hinj x hx c' hcl.1 (by simpa using hbeq)
          rw [← hxe] at hcl
          simp [hl] at hcl
      simp [hany]
  have hconn : (SetSecurityMode s BrEdrSecurityMode.secureConnectionsOnly).connections =
      (s.connections.filter (fun c => c.level == SecurityLevel.secureAuthenticated)).map (fun c => { c with mode := BrEdrSecurityMode.secureConnectionsOnly }) := by
    unfold SetSecurityMode
    simp only [if_pos]
    rw [hfold]
    have hfeq : s.connections.filter (fun x => !(((s.connections.filter (fun c => !(c.level == SecurityLevel.secureAuthenticated))).map (fun c => c.peerId)).any (fun q => x.peerId == q))) =
        s.connections.filter (fun c => c.level == SecurityLevel.secureAuthenticated) :=
      List.filter_congr hkey
    rw [hfeq]
  refine ⟨hconn, ?_, ?_⟩
  · simp [SetSecurityMode, hfold]
  · intro c hc
    rw [hconn] at hc
    obtain ⟨c', hc', rfl⟩ := List.mem_map.mp hc
    have hcl := List.mem_filter.mp hc'
    refine ⟨by simpa using hcl.2, rfl⟩

/-- Witness for `c4_secure_connections_only`: a manager with one
sufficiently secure connection (peer 10) and one merely encrypted
connection (peer 11); after the mode switch only peer 10 remains, with the
new mode. -/
theorem c4_secure_connections_only_witness :
    (SetSecurityMode
        { connections :=
            [{ handle := 1, peerId := 10, address := 100,
               level := SecurityLevel.secureAuthenticated,
               mode := BrEdrSecurityMode.mode4 },
             { handle := 2, peerId := 11, address := 101,
               level := SecurityLevel.encrypted,
               mode := BrEdrSecurityMode.mode4 }],
          connectionRequests := [], denyIncoming := [], now := 0,
          securityMode := BrEdrSecurityMode.mode4, peerIds := [],
          nextPeerId := 0 }
        BrEdrSecurityMode.secureConnectionsOnly).connections =
      [{ handle := 1, peerId := 10, address := 100,
         level := SecurityLevel.secureAuthenticated,
         mode := BrEdrSecurityMode.secureConnectionsOnly }] := by
  have h := c4_secure_connections_only
    { connections :=
        [{ handle := 1, peerId := 10, address := 100,
           level := SecurityLevel.secureAuthenticated,
           mode := BrEdrSecurityMode.mode4 },
         { handle := 2, peerId := 11, address := 101,
           level := SecurityLevel.encrypted,
           mode := BrEdrSecurityMode.mode4 }],
      connectionRequests := [], denyIncoming := [], now := 0,
      securityMode := BrEdrSecurityMode.mode4, peerIds := [],
      nextPeerId := 0 }
    (by decide) (by decide) (by decide)
  rw [h.1]
  rfl

end GapBrEdr
